import Mathlib

set_option maxRecDepth 8000

/-!
Shallow embedding of the GBE_CCB reconciliation and report-assembly engine.

Source files:
* `app_web/requerimentos_deferidos.py` — the upload/reconcile/export app
  (`normalize_columns`, `extract_matricula`, `find_original_matricula_column`,
  `fetch_presence`, `build_result`, `insert_cols`, the main flow and the two
  exports);
* `app_py/requerimentos_devolvidos.py` — the batch report (`main`, its two
  queries and the sheet writing).

Modelling conventions.  A spreadsheet cell is `Option String` (`none` is a
missing value, pandas `NaN`); a DataFrame is a schema (list of column names)
plus a list of rows, one list of cells per row (pandas frames are rectangular
and, after `read_excel` / `read_csv`, have unique column names — hypotheses
state rectangularity where a proof needs it).  Backing-store result sets are
passed in as data; a query that can fail is a boolean outcome flag.
-/

/-- Whitespace removed by Python `str.strip()`. -/
def isSpace (c : Char) : Bool :=
  c == ' ' || c == '\t' || c == '\n' || c == '\r' || c == '\x0b' || c == '\x0c'

/-- Strip leading and trailing whitespace from a list of characters. -/
def stripChars (l : List Char) : List Char :=
  ((l.dropWhile isSpace).reverse.dropWhile isSpace).reverse

/-- Python `str.strip()` as used in `extract_matricula` and in the
`.str.strip()` series operations. -/
def pyStrip (s : String) : String :=
  String.mk (stripChars s.data)

/-- One character of the `normalize_columns` pipeline
(`strip → lower → NFKD → encode("ascii", errors="ignore") → decode`):
an ASCII character is lower-cased; an accented Latin letter decomposes
under NFKD into its base letter plus a combining mark that the ascii
encoding discards, so it folds to the lower-cased base letter; any other
non-ASCII character is discarded entirely by the ascii encoding. -/
def foldChar (c : Char) : Option Char :=
  if c.toNat < 128 then some c.toLower else
  match c with
  | 'á' | 'à' | 'â' | 'ã' | 'ä' | 'Á' | 'À' | 'Â' | 'Ã' | 'Ä' => some 'a'
  | 'é' | 'è' | 'ê' | 'ë' | 'É' | 'È' | 'Ê' | 'Ë' => some 'e'
  | 'í' | 'ì' | 'î' | 'ï' | 'Í' | 'Ì' | 'Î' | 'Ï' => some 'i'
  | 'ó' | 'ò' | 'ô' | 'õ' | 'ö' | 'Ó' | 'Ò' | 'Ô' | 'Õ' | 'Ö' => some 'o'
  | 'ú' | 'ù' | 'û' | 'ü' | 'Ú' | 'Ù' | 'Û' | 'Ü' => some 'u'
  | 'ç' | 'Ç' => some 'c'
  | 'ñ' | 'Ñ' => some 'n'
  | _ => none

/-- The column-name normalisation of `normalize_columns` (and of the
per-column loop of `find_original_matricula_column`, which applies the same
chain to a single name). -/
def normalizeName (s : String) : String :=
  String.mk ((stripChars s.data).filterMap foldChar)

/-- Python `.replace(" ", "")`: remove space characters (only `' '`). -/
def removeSpaces (s : String) : String :=
  String.mk (s.data.filter (fun c => !(c == ' ')))

/-- Index of the first element satisfying `p` (how pandas label lookup and
`list.index` locate a column). -/
def firstMatchIdx {α : Type} (p : α → Bool) : List α → Option Nat
  | [] => none
  | c :: cs => if p c then some 0 else (firstMatchIdx p cs).map (· + 1)

/-- Column search of `extract_matricula`: first pass looks for a normalized
column literally equal to `"matricula"`, the fallback pass additionally
removes internal spaces.  `none` models the `KeyError` raise. -/
def findTargetIdx (cols : List String) : Option Nat :=
  let norm := cols.map normalizeName
  match firstMatchIdx (fun c => c == "matricula") norm with
  | some i => some i
  | none => firstMatchIdx (fun c => removeSpaces c == "matricula") norm

/-- The column predicate of `find_original_matricula_column`: the normalized
name matches `"matricula"` directly or after removing internal spaces. -/
def isMatriculaCol (c : String) : Bool :=
  normalizeName c == "matricula" || removeSpaces (normalizeName c) == "matricula"

/-- A stripped cell value dropped by `extract_matricula`
(`replace({"nan": None, "None": None, "": None}).dropna()`). -/
def absentVal (t : String) : Bool :=
  t == "" || t == "nan" || t == "None"

/-- Value cleaning of `extract_matricula`: stringified cells are stripped
and the literals `""`, `"nan"`, `"None"` are dropped. -/
def extractValues (vals : List String) : List String :=
  (vals.map pyStrip).filter (fun t => !(absentVal t))

/-- pandas `astype(str)` on an object-dtype cell: a missing value renders
as the literal string `"nan"`. -/
def cellStr (c : Option String) : String :=
  match c with
  | none => "nan"
  | some s => s

/-- A DataFrame: schema plus rectangular rows of cells. -/
structure Frame where
  cols : List String
  rows : List (List (Option String))
  deriving DecidableEq

/-- The values of column `j`. -/
def column (df : Frame) (j : Nat) : List (Option String) :=
  df.rows.map (fun r => r.getD j none)

/-- The cell of row `i`, column `j`. -/
def cellAt (df : Frame) (i j : Nat) : Option String :=
  (df.rows.getD i []).getD j none

/-- The result set of the first query of `fetch_presence` (`SQL_PLANOS`,
source `"Bloqueios"`): rows of `(Matricula, Responsavel)`.  The column
flags model the `"Matricula" in df1.columns` / `"Responsavel" in
df1.columns` guards of `build_result`. -/
structure DF1 where
  hasMatricula : Bool
  hasResponsavel : Bool
  rows : List (String × Option String)
  deriving DecidableEq

/-- The result set of the second query of `fetch_presence` (`SQL_REQUER`,
source `"Liminar"`): rows holding only `Matricula`.  A frame with
`hasMatricula = false` models `pd.DataFrame()` (no columns at all). -/
structure DF2 where
  hasMatricula : Bool
  rows : List String
  deriving DecidableEq

/-- The `Matricula` column of the first result set. -/
def df1Keys (d : DF1) : List String :=
  d.rows.map Prod.fst

/-- The auxiliary attribute the first result set supplies for `m`:
`df1.drop_duplicates(subset=["Matricula"]).set_index("Matricula")["Responsavel"]`
mapped at `m` — the first row for `m` wins, a missing key and a null value
both give `none`. -/
def sourceAttr (d1 : DF1) (m : String) : Option String :=
  ((d1.rows.find? (fun r => r.1 == m)).map Prod.snd).join

/-- `build_result`: one output row `(Matricula, Origem, Responsavel)` per
input matricula.  `s1`/`s2` membership is `isin` on the result-set column
(empty when the column is missing); the label is `"Ambas"` when in both,
else the single source name, else `None`; `Responsavel` is the mapped
`sourceAttr` when `df1` has the column. -/
def build_result (mats : List String) (d1 : DF1) (d2 : DF2) :
    List (String × Option String × Option String) :=
  mats.map fun m =>
    let inP := d1.hasMatricula && (df1Keys d1).contains m
    let inR := d2.hasMatricula && d2.rows.contains m
    let origem : Option String :=
      if inP && inR then some "Ambas"
      else if inP then some "Bloqueios"
      else if inR then some "Liminar"
      else none
    let resp : Option String :=
      if d1.hasResponsavel then sourceAttr d1 m
      else none
    (m, origem, resp)

/-- Lookup in a Python `dict(zip(keys, vals))`: on duplicate keys the last
pair wins; a missing key yields `none`. -/
def dlookup (pairs : List (String × Option String)) (k : String) : Option (Option String) :=
  (pairs.reverse.find? (fun p => p.1 == k)).map Prod.snd

/-- Positional insertion, as pandas `DataFrame.insert(loc, …)` places a new
column (insertion past the end appends, matching list semantics of the
model; the pipeline only inserts at positions within the schema). -/
def insertNth {α : Type} : List α → Nat → α → List α
  | l, 0, a => a :: l
  | [], _ + 1, a => [a]
  | c :: cs, n + 1, a => c :: insertNth cs n a

/-- pandas `DataFrame.insert(loc, name, vals)`: raises `ValueError` when
`name` is already a column (`allow_duplicates` defaults to `False`) —
modelled as `none`; otherwise the column is inserted at position `loc` of
the schema and of every row. -/
def dfInsert (df : Frame) (loc : Nat) (name : String) (vals : List (Option String)) :
    Option Frame :=
  if df.cols.contains name then none
  else some ⟨insertNth df.cols loc name,
             List.zipWith (fun r v => insertNth r loc v) df.rows vals⟩

/-- pandas column assignment `df[name] = vals`: overwrites the existing
column in place when `name` is already in the schema, otherwise appends a
new last column. -/
def dfAssign (df : Frame) (name : String) (vals : List (Option String)) : Frame :=
  match firstMatchIdx (fun c => c == name) df.cols with
  | some j => ⟨df.cols, List.zipWith (fun r v => r.set j v) df.rows vals⟩
  | none => ⟨df.cols ++ [name], List.zipWith (fun r v => r ++ [v]) df.rows vals⟩

/-- The anchor test of `insert_cols`: literal equality with
`"Situação do Participante"`. -/
def isAnchor (c : String) : Bool :=
  c == "Situação do Participante"

/-- `insert_cols`: when the literal anchor `"Situação do Participante"` is
in the schema, `Origem` is inserted at `idx + 1` and `Responsavel` at
`idx + 2`; otherwise both are added by plain column assignment.
(`reindex` over the unchanged index and `reset_index(drop=True)` are
identities in this model.) -/
def insert_cols (df : Frame) (origemS respS : List (Option String)) : Option Frame :=
  match firstMatchIdx isAnchor df.cols with
  | some idx => do
      let d1 ← dfInsert df (idx + 1) "Origem" origemS
      dfInsert d1 (idx + 2) "Responsavel" respS
  | none => some (dfAssign (dfAssign df "Origem" origemS) "Responsavel" respS)

/-- The cleaned identifier batch of `extract_matricula`, read off column
`tgt` of the uploaded frame (`normalize_columns` only renames columns, so
the values of the normalized frame are those of the original). -/
def appMats (df : Frame) (tgt : Nat) : List String :=
  extractValues ((column df tgt).map cellStr)

/-- `dict(zip(result["Matricula"].astype(str).str.strip(), result["Origem"]))`. -/
def mapaOrigem (result : List (String × Option String × Option String)) :
    List (String × Option String) :=
  result.map (fun r => (pyStrip r.1, r.2.1))

/-- `dict(zip(result["Matricula"].astype(str).str.strip(), result["Responsavel"]))`. -/
def mapaResp (result : List (String × Option String × Option String)) :
    List (String × Option String) :=
  result.map (fun r => (pyStrip r.1, r.2.2))

/-- `df_raw[original_col].astype(str).str.strip().map(mapa)`: the derived
series, `none` on a missing key and on a key mapped to `None`. -/
def serieFromMapa (df : Frame) (orig : Nat) (mapa : List (String × Option String)) :
    List (Option String) :=
  ((column df orig).map (fun c => pyStrip (cellStr c))).map
    (fun k => (dlookup mapa k).join)

/-- The main flow of the web app, from the loaded frame to
`df_export_completo`: locate and clean the matricula column
(`extract_matricula`), stop on an empty batch, build the consolidated
result from the two backing-store result sets, map `Origem`/`Responsavel`
back over the original matricula column, and insert the derived columns.
`none` covers the `KeyError` raises, the `st.stop()` on an empty batch and
a `ValueError` from `insert`. -/
def runApp (df : Frame) (d1 : DF1) (d2 : DF2) : Option Frame :=
  match findTargetIdx df.cols with
  | none => none
  | some tgt =>
    if (appMats df tgt).isEmpty then none
    else
      match firstMatchIdx isMatriculaCol df.cols with
      | none => none
      | some orig =>
        let result := build_result (appMats df tgt) d1 d2
        insert_cols df (serieFromMapa df orig (mapaOrigem result))
          (serieFromMapa df orig (mapaResp result))

/-- `df_export_matches`: the rows of the full export whose `Origem` cell is
not null (`.loc[df_export_completo["Origem"].notna()]`); the column is
located by label.  `none` models the `KeyError` on a missing label. -/
def df_export_matches (full : Frame) : Option Frame :=
  (firstMatchIdx (fun c => c == "Origem") full.cols).map fun j =>
    ⟨full.cols, full.rows.filter (fun r => (r.getD j none).isSome)⟩

/-- The branch taken after `extract_matricula` in the main flow: an empty
batch warns and calls `st.stop()` before any database access. -/
inductive FlowOutcome where
  | stoppedEmpty : FlowOutcome
  | proceeded : List String → FlowOutcome
  deriving DecidableEq

/-- `df_matricula.empty` check of the main flow. -/
def pipelineAfterExtract (vals : List String) : FlowOutcome :=
  let m := extractValues vals
  if m.isEmpty then FlowOutcome.stoppedEmpty else FlowOutcome.proceeded m

/-- Number of `fetch_presence` round trips issued for the upload:
`fetch_presence` runs exactly once, and only on the `proceeded` branch. -/
def fetchCalls (vals : List String) : Nat :=
  match pipelineAfterExtract vals with
  | FlowOutcome.stoppedEmpty => 0
  | FlowOutcome.proceeded _ => 1

/-- `fetch_presence`, seen as a transition on the set of staging tables of
the backing store.  The body runs inside `with engine.begin() as conn:`
(one transaction, committed on normal exit of the block and rolled back
when the block exits with an exception), and SQL Server DDL on a
`#`-temporary table is transactional, so a rollback removes the staged
table.  Steps: `CREATE TABLE temp`; `executemany` insert (`insOk`);
query 1 (`q1Ok`); query 2 (`q2Ok`); `DROP TABLE temp`; commit.  The result
is the final set of staging tables plus the success flag. -/
def fetch_presence_store (tables : List String) (temp : String)
    (insOk q1Ok q2Ok : Bool) : List String × Bool :=
  let tx := tables ++ [temp]
  if !insOk then (tables, false)
  else if !q1Ok then (tables, false)
  else if !q2Ok then (tables, false)
  else (tx.erase temp, true)

/-- The query phase of `main` in `app_py/requerimentos_devolvidos.py`
(lines 452–467): the principal query runs first and a failure returns from
`main` (no export at all, `none`); the `sem_numero_beneficio` query runs in
an inner `try` whose handler replaces its result with `pd.DataFrame()`
(an empty frame) and continues. -/
def mainQueries (q1Ok q2Ok : Bool) (d1 d2 : List (List String)) :
    Option (List (List String) × List (List String)) :=
  if q1Ok then some (d1, if q2Ok then d2 else []) else none

/-- The sheet name used for both exports of the web app:
`(sheet_selected or "Planilha")[:31]`. -/
def xlsx_sheet (sheet_selected : Option String) : String :=
  String.mk ((sheet_selected.getD "Planilha").data.take 31)

/-- Sheet name of the primary sheet of the batch report. -/
def sheetDados : String := "Dados"

/-- Sheet name of the auxiliary sheet of the batch report. -/
def sheetSemNumero : String := "sem_numero_beneficio"

/-- Sheet name of the statistics sheet of the batch report. -/
def sheetEstatistica : String := "Estatistica"

/-- Characters that are invalid in an xlsx worksheet name. -/
def invalidSheetChars : List Char := [':', '\\', '/', '?', '*', '[', ']']

/-- Modelled from the spec (§4.3): the provenance label of the membership
resolver, stated over the list of per-source memberships in precedence
order — `Both` (rendered `"Ambas"`) with at least two containing sources,
the single source name with exactly one, `Unmatched` (`none`) with none. -/
def specLabel (memberships : List (String × Bool)) : Option String :=
  let present := (memberships.filter Prod.snd).map Prod.fst
  if 2 ≤ present.length then some "Ambas"
  else
    match present with
    | [n] => some n
    | _ => none

/-- Modelled from the spec (§4.3): the auxiliary attribute of the
membership resolver — the attribute of the first source in precedence
order that contains the identifier and supplies a non-null attribute,
`none` when no source does. -/
def specAux (sources : List (Bool × Option String)) : Option String :=
  match sources.find? (fun s => s.1 && s.2.isSome) with
  | some s => s.2
  | none => none

/-! ### Helper lemmas -/

theorem dropWhile_head_false {p : Char → Bool} {l : List Char} {a : Char} {t : List Char}
    (h : l.dropWhile p = a :: t) : p a = false := by
  induction l with
  | nil => simp at h
  | cons c cs ih =>
    rw [List.dropWhile_cons] at h
    by_cases hc : p c
    · rw [if_pos hc] at h; exact ih h
    · rw [if_neg hc] at h
      injection h with h1 _
      subst h1
      exact Bool.eq_false_iff.mpr hc

theorem dropWhile_stripChars (l : List Char) :
    (stripChars l).dropWhile isSpace = stripChars l := by
  have hpre : stripChars l <+: l.dropWhile isSpace := by
    have h0 : List.dropWhile isSpace (l.dropWhile isSpace).reverse <:+ (l.dropWhile isSpace).reverse :=
      List.dropWhile_suffix isSpace
    have h := List.reverse_prefix.mpr h0
    rw [List.reverse_reverse] at h
    exact h
  obtain ⟨t, ht⟩ := hpre
  cases hB : stripChars l with
  | nil => simp
  | cons b bs =>
    rw [hB] at ht
    have hhead : isSpace b = false := by
      cases hA : l.dropWhile isSpace with
      | nil => rw [hA] at ht; simp at ht
      | cons a as =>
        have hab : a = b := by
          rw [hA] at ht
          injection ht.symm with h1 _
        subst hab
        exact dropWhile_head_false hA
    rw [List.dropWhile_cons, hhead]
    simp

theorem dropWhile_reverse_stripChars (l : List Char) :
    (stripChars l).reverse.dropWhile isSpace = (stripChars l).reverse := by
  unfold stripChars
  rw [List.reverse_reverse]
  exact List.dropWhile_idempotent isSpace _

theorem stripChars_idem (l : List Char) : stripChars (stripChars l) = stripChars l := by
  show (((stripChars l).dropWhile isSpace).reverse.dropWhile isSpace).reverse = stripChars l
  rw [dropWhile_stripChars l, dropWhile_reverse_stripChars l, List.reverse_reverse]

theorem pyStrip_idem (s : String) : pyStrip (pyStrip s) = pyStrip s := by
  show String.mk (stripChars (String.mk (stripChars s.data)).data) = _
  rw [show (String.mk (stripChars s.data)).data = stripChars s.data from rfl, stripChars_idem]
  rfl

theorem firstMatchIdx_cons {α : Type} (p : α → Bool) (c : α) (cs : List α) :
    firstMatchIdx p (c :: cs) =
      if p c then some 0 else (firstMatchIdx p cs).map (· + 1) := rfl

theorem firstMatchIdx_eq_none_iff {α : Type} (p : α → Bool) (l : List α) :
    firstMatchIdx p l = none ↔ ∀ x ∈ l, p x = false := by
  induction l with
  | nil => simp [firstMatchIdx]
  | cons c cs ih =>
    cases hpc : p c with
    | true => simp [firstMatchIdx_cons, hpc]
    | false =>
      rw [firstMatchIdx_cons, hpc, if_neg (by simp)]
      rw [Option.map_eq_none', ih]
      constructor
      · intro h x hx
        rcases List.mem_cons.mp hx with hx' | hx'
        · rw [hx']; exact hpc
        · exact h x hx'
      · intro h x hx
        exact h x (List.mem_cons_of_mem c hx)

theorem firstMatchIdx_append_cons {α : Type} (p : α → Bool) (xs : List α) (y : α) (zs : List α)
    (hxs : ∀ x ∈ xs, p x = false) (hy : p y = true) :
    firstMatchIdx p (xs ++ y :: zs) = some xs.length := by
  induction xs with
  | nil => simp [firstMatchIdx_cons, hy]
  | cons c cs ih =>
    have hc : p c = false := hxs c (List.mem_cons_self c cs)
    rw [List.cons_append, firstMatchIdx_cons, hc, if_neg (by simp)]
    rw [ih (fun x hx => hxs x (List.mem_cons_of_mem c hx))]
    rfl

theorem firstMatchIdx_lt_length {α : Type} {p : α → Bool} {l : List α} {n : Nat}
    (h : firstMatchIdx p l = some n) : n < l.length := by
  induction l generalizing n with
  | nil => simp [firstMatchIdx] at h
  | cons c cs ih =>
    cases hpc : p c with
    | true =>
      rw [firstMatchIdx_cons, hpc, if_pos rfl] at h
      injection h with h
      subst h
      simp
    | false =>
      rw [firstMatchIdx_cons, hpc, if_neg (by simp)] at h
      cases hm : firstMatchIdx p cs with
      | none => rw [hm] at h; simp at h
      | some m =>
        rw [hm] at h
        simp at h
        subst h
        exact Nat.succ_lt_succ (ih hm)

theorem firstMatchIdx_append_left {α : Type} {p : α → Bool} {xs : List α} {n : Nat}
    (ys : List α) (h : firstMatchIdx p xs = some n) :
    firstMatchIdx p (xs ++ ys) = some n := by
  induction xs generalizing n with
  | nil => simp [firstMatchIdx] at h
  | cons c cs ih =>
    cases hpc : p c with
    | true =>
      rw [firstMatchIdx_cons, hpc, if_pos rfl] at h
      rw [List.cons_append, firstMatchIdx_cons, hpc, if_pos rfl]
      exact h
    | false =>
      rw [firstMatchIdx_cons, hpc, if_neg (by simp)] at h
      rw [List.cons_append, firstMatchIdx_cons, hpc, if_neg (by simp)]
      cases hm : firstMatchIdx p cs with
      | none => rw [hm] at h; simp at h
      | some m =>
        rw [hm] at h
        simp at h
        subst h
        rw [ih hm]
        rfl

theorem firstMatchIdx_sound {α : Type} {p : α → Bool} {l : List α} {n : Nat}
    (h : firstMatchIdx p l = some n) : ∃ a, l.get? n = some a ∧ p a = true := by
  induction l generalizing n with
  | nil => simp [firstMatchIdx] at h
  | cons c cs ih =>
    cases hpc : p c with
    | true =>
      rw [firstMatchIdx_cons, hpc, if_pos rfl] at h
      injection h with h
      subst h
      exact ⟨c, rfl, hpc⟩
    | false =>
      rw [firstMatchIdx_cons, hpc, if_neg (by simp)] at h
      cases hm : firstMatchIdx p cs with
      | none => rw [hm] at h; simp at h
      | some m =>
        rw [hm] at h
        simp at h
        subst h
        obtain ⟨a, ha, hpa⟩ := ih hm
        exact ⟨a, ha, hpa⟩

theorem insertNth_zero {α : Type} (l : List α) (a : α) : insertNth l 0 a = a :: l := by
  cases l <;> rfl

theorem length_insertNth {α : Type} (l : List α) (n : Nat) (a : α) :
    (insertNth l n a).length = l.length + 1 := by
  induction l generalizing n with
  | nil => cases n <;> rfl
  | cons c cs ih =>
    cases n with
    | zero => rfl
    | succ m => simpa [insertNth] using ih m

theorem insertNth_eq_take_cons_drop {α : Type} (l : List α) (n : Nat) (a : α) :
    insertNth l n a = l.take n ++ a :: l.drop n := by
  induction l generalizing n with
  | nil => cases n <;> rfl
  | cons c cs ih =>
    cases n with
    | zero => rfl
    | succ m => simpa [insertNth] using ih m

theorem insertNth_insertNth_succ {α : Type} (l : List α) (n : Nat) (a b : α) :
    insertNth (insertNth l n a) (n + 1) b = l.take n ++ a :: b :: l.drop n := by
  induction l generalizing n with
  | nil => cases n <;> rfl
  | cons c cs ih =>
    cases n with
    | zero => rfl
    | succ m => simpa [insertNth] using ih m

theorem mem_insertNth {α : Type} {x a : α} {l : List α} {n : Nat} :
    x ∈ insertNth l n a ↔ x = a ∨ x ∈ l := by
  rw [insertNth_eq_take_cons_drop]
  constructor
  · intro h
    rcases List.mem_append.mp h with h' | h'
    · exact Or.inr (List.take_subset n l h')
    · rcases List.mem_cons.mp h' with h'' | h''
      · exact Or.inl h''
      · exact Or.inr (List.drop_subset n l h'')
  · intro h
    rcases h with h' | h'
    · exact List.mem_append.mpr (Or.inr (List.mem_cons.mpr (Or.inl h')))
    · have hx : x ∈ l.take n ++ l.drop n := by rw [List.take_append_drop]; exact h'
      rcases List.mem_append.mp hx with h'' | h''
      · exact List.mem_append.mpr (Or.inl h'')
      · exact List.mem_append.mpr (Or.inr (List.mem_cons_of_mem a h''))

theorem getD_insertNth_self {α : Type} (l : List α) (n : Nat) (a d : α) (h : n ≤ l.length) :
    (insertNth l n a).getD n d = a := by
  induction l generalizing n with
  | nil =>
    cases n with
    | zero => rfl
    | succ m => simp at h
  | cons c cs ih =>
    cases n with
    | zero => rfl
    | succ m =>
      show (c :: insertNth cs m a).getD (m + 1) d = a
      simpa using ih m (Nat.le_of_succ_le_succ h)

theorem getD_insertNth_lt {α : Type} (l : List α) (n i : Nat) (a d : α) (h : i < n)
    (h2 : i < l.length) : (insertNth l n a).getD i d = l.getD i d := by
  induction l generalizing n i with
  | nil => simp at h2
  | cons c cs ih =>
    cases n with
    | zero => omega
    | succ m =>
      cases i with
      | zero => rfl
      | succ j =>
        show (c :: insertNth cs m a).getD (j + 1) d = (c :: cs).getD (j + 1) d
        simpa using ih m j (Nat.lt_of_succ_lt_succ h) (by simpa using Nat.lt_of_succ_lt_succ h2)

theorem zipWith_get? {α β γ : Type} (f : α → β → γ) {l1 : List α} {l2 : List β} {i : Nat}
    {x : α} {y : β} (h1 : l1.get? i = some x) (h2 : l2.get? i = some y) :
    (List.zipWith f l1 l2).get? i = some (f x y) := by
  induction l1 generalizing l2 i with
  | nil => simp at h1
  | cons a as ih =>
    cases l2 with
    | nil => simp at h2
    | cons b bs =>
      cases i with
      | zero =>
        simp at h1 h2
        rw [h1, h2]
        rfl
      | succ j =>
        show (List.zipWith f as bs).get? j = some (f x y)
        exact ih h1 h2

theorem getD_append_left {α : Type} (l1 l2 : List α) (i : Nat) (d : α) (h : i < l1.length) :
    (l1 ++ l2).getD i d = l1.getD i d := by
  simp [List.getD, List.getElem?_append, h]

theorem getD_append_length {α : Type} (l1 l2 : List α) (d : α) :
    (l1 ++ l2).getD l1.length d = l2.getD 0 d := by
  simp [List.getD, List.getElem?_append]

theorem getD_set_self {α : Type} (l : List α) (j : Nat) (v d : α) (h : j < l.length) :
    (l.set j v).getD j d = v := by
  simp [List.getD, List.getElem?_set_self, h]

theorem getD_set_ne {α : Type} (l : List α) (i j : Nat) (v d : α) (h : i ≠ j) :
    (l.set j v).getD i d = l.getD i d := by
  simp [List.getD, List.getElem?_set_ne (Ne.symm h)]

theorem contains_eq_false_iff {l : List String} {a : String} :
    l.contains a = false ↔ a ∉ l :=
  Bool.eq_false_iff.trans (not_congr List.elem_iff)

theorem firstMatchIdx_beq_eq_none_iff {l : List String} {a : String} :
    firstMatchIdx (fun c => c == a) l = none ↔ a ∉ l := by
  rw [firstMatchIdx_eq_none_iff]
  constructor
  · intro h hmem
    have := h a hmem
    simp at this
  · intro h x hx
    by_cases hxa : x = a
    · subst hxa; exact absurd hx h
    · exact beq_eq_false_iff_ne.mpr hxa

theorem mem_extractValues {vals : List String} {k : String} (h : k ∈ extractValues vals) :
    absentVal k = false ∧ pyStrip k = k := by
  unfold extractValues at h
  obtain ⟨hm, hf⟩ := List.mem_filter.mp h
  obtain ⟨v, _, rfl⟩ := List.mem_map.mp hm
  exact ⟨by simpa using hf, pyStrip_idem v⟩

theorem dlookup_eq_none {pairs : List (String × Option String)} {k : String}
    (h : ∀ p ∈ pairs, p.1 ≠ k) : dlookup pairs k = none := by
  have hf : pairs.reverse.find? (fun p => p.1 == k) = none :=
    List.find?_eq_none.mpr (fun p hp => by
      simpa using h p (List.mem_reverse.mp hp))
  unfold dlookup
  rw [hf]
  rfl

theorem keys_contains_eq (rows : List (String × Option String)) (m : String) :
    (rows.map Prod.fst).contains m = (rows.find? (fun r => r.1 == m)).isSome := by
  rw [Bool.eq_iff_iff, List.elem_iff, List.find?_isSome]
  constructor
  · intro hmem
    obtain ⟨r, hr, hrm⟩ := List.mem_map.mp hmem
    exact ⟨r, hr, beq_iff_eq.mpr hrm⟩
  · intro hex
    obtain ⟨r, hr, hrm⟩ := hex
    exact List.mem_map.mpr ⟨r, hr, beq_iff_eq.mp hrm⟩

theorem get?_append_length_singleton {α : Type} (l : List α) (a : α) :
    (l ++ [a]).get? l.length = some a := by
  induction l with
  | nil => rfl
  | cons c cs ih => exact ih

theorem insert_cols_anchor {df : Frame} {oS rS : List (Option String)} {idx : Nat}
    (ha : firstMatchIdx isAnchor df.cols = some idx)
    (hO : "Origem" ∉ df.cols) (hR : "Responsavel" ∉ df.cols) :
    insert_cols df oS rS =
      some ⟨df.cols.take (idx + 1) ++ "Origem" :: "Responsavel" :: df.cols.drop (idx + 1),
        List.zipWith (fun r v => insertNth r (idx + 2) v)
          (List.zipWith (fun r v => insertNth r (idx + 1) v) df.rows oS) rS⟩ := by
  have hO' : df.cols.contains "Origem" = false := contains_eq_false_iff.mpr hO
  have hR' : (insertNth df.cols (idx + 1) "Origem").contains "Responsavel" = false := by
    rw [contains_eq_false_iff]
    intro hmem
    rcases mem_insertNth.mp hmem with h' | h'
    · exact absurd h' (by simp at h')
    · exact hR h'
  unfold insert_cols
  rw [ha]
  show (dfInsert df (idx + 1) "Origem" oS).bind
      (fun d1 => dfInsert d1 (idx + 2) "Responsavel" rS) = _
  rw [show dfInsert df (idx + 1) "Origem" oS =
      some ⟨insertNth df.cols (idx + 1) "Origem",
        List.zipWith (fun r v => insertNth r (idx + 1) v) df.rows oS⟩ by
    unfold dfInsert; rw [hO']; rfl]
  rw [Option.some_bind]
  unfold dfInsert
  rw [show (⟨insertNth df.cols (idx + 1) "Origem",
      List.zipWith (fun r v => insertNth r (idx + 1) v) df.rows oS⟩ : Frame).cols =
      insertNth df.cols (idx + 1) "Origem" from rfl, hR']
  rw [if_neg (by simp)]
  rw [show (insertNth (insertNth df.cols (idx + 1) "Origem") (idx + 1 + 1) "Responsavel") =
      df.cols.take (idx + 1) ++ "Origem" :: "Responsavel" :: df.cols.drop (idx + 1) from
    insertNth_insertNth_succ df.cols (idx + 1) "Origem" "Responsavel"]

theorem insert_cols_noanchor {df : Frame} {oS rS : List (Option String)}
    (ha : firstMatchIdx isAnchor df.cols = none)
    (hO : "Origem" ∉ df.cols) (hR : "Responsavel" ∉ df.cols) :
    insert_cols df oS rS =
      some ⟨df.cols ++ ["Origem"] ++ ["Responsavel"],
        List.zipWith (fun r v => r ++ [v])
          (List.zipWith (fun r v => r ++ [v]) df.rows oS) rS⟩ := by
  have hR2 : "Responsavel" ∉ df.cols ++ ["Origem"] := by
    intro hmem
    rcases List.mem_append.mp hmem with h' | h'
    · exact hR h'
    · simp at h'
  unfold insert_cols
  rw [ha]
  unfold dfAssign
  rw [firstMatchIdx_beq_eq_none_iff.mpr hO]
  rw [show (⟨df.cols ++ ["Origem"],
      List.zipWith (fun r v => r ++ [v]) df.rows oS⟩ : Frame).cols =
      df.cols ++ ["Origem"] from rfl]
  rw [firstMatchIdx_beq_eq_none_iff.mpr hR2]

theorem insert_cols_positions {df : Frame} {oS rS : List (Option String)} {out : Frame}
    (h : insert_cols df oS rS = some out)
    (hrect : ∀ r ∈ df.rows, r.length = df.cols.length) :
    out.rows.length = min (min df.rows.length oS.length) rS.length ∧
    ∃ jO jR,
      firstMatchIdx (fun c => c == "Origem") out.cols = some jO ∧
      firstMatchIdx (fun c => c == "Responsavel") out.cols = some jR ∧
      ∀ i r x y, df.rows.get? i = some r → oS.get? i = some x → rS.get? i = some y →
        ∃ r2, out.rows.get? i = some r2 ∧ r2.getD jO none = x ∧ r2.getD jR none = y := by
  unfold insert_cols at h
  split at h
  · -- anchor present: two positional inserts
    rename_i idx ha
    have hidx : idx < df.cols.length := firstMatchIdx_lt_length ha
    unfold dfInsert at h
    split at h
    · simp at h
    · rename_i hOc
      simp only [Bind.bind, Option.bind] at h
      split at h
      · simp at h
      · rename_i hRc
        have hout : out = ⟨insertNth (insertNth df.cols (idx + 1) "Origem") (idx + 2) "Responsavel",
            List.zipWith (fun r v => insertNth r (idx + 2) v)
              (List.zipWith (fun r v => insertNth r (idx + 1) v) df.rows oS) rS⟩ :=
          (Option.some.inj h).symm
        have hOmem : "Origem" ∉ df.cols := fun hm => hOc (List.elem_iff.mpr hm)
        have hRmem : "Responsavel" ∉ insertNth df.cols (idx + 1) "Origem" :=
          fun hm => hRc (List.elem_iff.mpr hm)
        have hRcols : "Responsavel" ∉ df.cols := fun hm => hRmem (mem_insertNth.mpr (Or.inr hm))
        have hcols2 : out.cols =
            df.cols.take (idx + 1) ++ "Origem" :: "Responsavel" :: df.cols.drop (idx + 1) := by
          rw [hout]
          show insertNth (insertNth df.cols (idx + 1) "Origem") (idx + 2) "Responsavel" = _
          rw [show idx + 2 = idx + 1 + 1 from rfl]
          exact insertNth_insertNth_succ df.cols (idx + 1) "Origem" "Responsavel"
        have hrows2 : out.rows = List.zipWith (fun r v => insertNth r (idx + 2) v)
            (List.zipWith (fun r v => insertNth r (idx + 1) v) df.rows oS) rS := by
          rw [hout]
        have hT : (df.cols.take (idx + 1)).length = idx + 1 := by
          rw [List.length_take]; omega
        constructor
        · rw [hrows2, List.length_zipWith, List.length_zipWith]
        have hfO : firstMatchIdx (fun c => c == "Origem")
            (df.cols.take (idx + 1) ++ "Origem" :: "Responsavel" :: df.cols.drop (idx + 1)) =
            some (df.cols.take (idx + 1)).length :=
          firstMatchIdx_append_cons _ _ _ _
            (fun x hx => beq_eq_false_iff_ne.mpr
              (fun he => hOmem (he ▸ List.take_subset _ _ hx))) (by simp)
        have hsplitR : df.cols.take (idx + 1) ++ "Origem" :: "Responsavel" :: df.cols.drop (idx + 1) =
            (df.cols.take (idx + 1) ++ ["Origem"]) ++ "Responsavel" :: df.cols.drop (idx + 1) := by
          simp
        have hfR : firstMatchIdx (fun c => c == "Responsavel")
            ((df.cols.take (idx + 1) ++ ["Origem"]) ++ "Responsavel" :: df.cols.drop (idx + 1)) =
            some (df.cols.take (idx + 1) ++ ["Origem"]).length :=
          firstMatchIdx_append_cons _ _ _ _
            (fun x hx => by
              rcases List.mem_append.mp hx with h' | h'
              · exact beq_eq_false_iff_ne.mpr
                  (fun he => hRcols (he ▸ List.take_subset _ _ h'))
              · simp at h'
                subst h'
                simp) (by simp)
        refine ⟨idx + 1, idx + 2, ?_, ?_, ?_⟩
        · rw [hcols2, hfO, hT]
        · rw [hcols2, hsplitR, hfR]
          simp [hT]
        · intro i r x y hri hxi hyi
          have hr1 := zipWith_get? (fun r v => insertNth r (idx + 1) v) hri hxi
          have hr2 := zipWith_get? (fun r v => insertNth r (idx + 2) v) hr1 hyi
          have hrl : r.length = df.cols.length := hrect r (List.get?_mem hri)
          refine ⟨_, by rw [hrows2]; exact hr2, ?_, ?_⟩
          · rw [show idx + 2 = idx + 1 + 1 from rfl]
            rw [getD_insertNth_lt _ (idx + 1 + 1) (idx + 1) _ _ (by omega)
              (by rw [length_insertNth]; omega)]
            exact getD_insertNth_self _ _ _ _ (by omega)
          · exact getD_insertNth_self _ _ _ _ (by rw [length_insertNth]; omega)
  · -- anchor absent: two column assignments
    rename_i ha
    have hout : out = dfAssign (dfAssign df "Origem" oS) "Responsavel" rS :=
      (Option.some.inj h).symm
    cases hO0 : firstMatchIdx (fun c => c == "Origem") df.cols with
    | some j1 =>
      have hj1 : j1 < df.cols.length := firstMatchIdx_lt_length hO0
      have e1 : dfAssign df "Origem" oS =
          ⟨df.cols, List.zipWith (fun r v => r.set j1 v) df.rows oS⟩ := by
        unfold dfAssign; rw [hO0]
      cases hR0 : firstMatchIdx (fun c => c == "Responsavel") df.cols with
      | some j2 =>
        have hj2 : j2 < df.cols.length := firstMatchIdx_lt_length hR0
        have hne : j1 ≠ j2 := by
          intro he
          subst he
          obtain ⟨a1, hg1, hp1⟩ := firstMatchIdx_sound hO0
          obtain ⟨a2, hg2, hp2⟩ := firstMatchIdx_sound hR0
          rw [hg1] at hg2
          injection hg2 with hg
          subst hg
          rw [beq_iff_eq] at hp1 hp2
          rw [hp1] at hp2
          exact absurd hp2 (by decide)
        have e2 : dfAssign (⟨df.cols, List.zipWith (fun r v => r.set j1 v) df.rows oS⟩ : Frame)
            "Responsavel" rS =
            ⟨df.cols, List.zipWith (fun r v => r.set j2 v)
              (List.zipWith (fun r v => r.set j1 v) df.rows oS) rS⟩ := by
          unfold dfAssign; rw [show (⟨df.cols, List.zipWith (fun r v => r.set j1 v) df.rows oS⟩ : Frame).cols = df.cols from rfl, hR0]
        rw [e1, e2] at hout
        constructor
        · rw [hout, List.length_zipWith, List.length_zipWith]
        refine ⟨j1, j2, ?_, ?_, ?_⟩
        · rw [hout]; exact hO0
        · rw [hout]; exact hR0
        · intro i r x y hri hxi hyi
          have hr1 := zipWith_get? (fun r v => r.set j1 v) hri hxi
          have hr2 := zipWith_get? (fun r v => r.set j2 v) hr1 hyi
          have hrl : r.length = df.cols.length := hrect r (List.get?_mem hri)
          refine ⟨_, by rw [hout]; exact hr2, ?_, ?_⟩
          · rw [getD_set_ne _ j1 j2 _ _ hne]
            exact getD_set_self _ _ _ _ (by omega)
          · exact getD_set_self _ _ _ _ (by rw [List.length_set]; omega)
      | none =>
        have e2 : dfAssign (⟨df.cols, List.zipWith (fun r v => r.set j1 v) df.rows oS⟩ : Frame)
            "Responsavel" rS =
            ⟨df.cols ++ ["Responsavel"], List.zipWith (fun r v => r ++ [v])
              (List.zipWith (fun r v => r.set j1 v) df.rows oS) rS⟩ := by
          unfold dfAssign; rw [show (⟨df.cols, List.zipWith (fun r v => r.set j1 v) df.rows oS⟩ : Frame).cols = df.cols from rfl, hR0]
        rw [e1, e2] at hout
        constructor
        · rw [hout, List.length_zipWith, List.length_zipWith]
        refine ⟨j1, df.cols.length, ?_, ?_, ?_⟩
        · rw [hout]
          exact firstMatchIdx_append_left _ hO0
        · rw [hout]
          exact firstMatchIdx_append_cons _ _ _ _
            ((firstMatchIdx_eq_none_iff _ _).mp hR0) (by simp)
        · intro i r x y hri hxi hyi
          have hr1 := zipWith_get? (fun r v => r.set j1 v) hri hxi
          have hr2 := zipWith_get? (fun r v => r ++ [v]) hr1 hyi
          have hrl : r.length = df.cols.length := hrect r (List.get?_mem hri)
          refine ⟨_, by rw [hout]; exact hr2, ?_, ?_⟩
          · rw [getD_append_left _ _ j1 _ (by rw [List.length_set]; omega)]
            exact getD_set_self _ _ _ _ (by omega)
          · rw [show df.cols.length = (r.set j1 x).length from by rw [List.length_set]; omega]
            rw [getD_append_length]
            rfl
    | none =>
      have e1 : dfAssign df "Origem" oS =
          ⟨df.cols ++ ["Origem"], List.zipWith (fun r v => r ++ [v]) df.rows oS⟩ := by
        unfold dfAssign; rw [hO0]
      have hfO : firstMatchIdx (fun c => c == "Origem") (df.cols ++ ["Origem"]) =
          some df.cols.length := by
        have := firstMatchIdx_append_cons (fun c => c == "Origem") df.cols "Origem" []
          ((firstMatchIdx_eq_none_iff _ _).mp hO0) (by simp)
        simpa using this
      cases hR1 : firstMatchIdx (fun c => c == "Responsavel") (df.cols ++ ["Origem"]) with
      | some j2 =>
        have hj2 : j2 < df.cols.length + 1 := by
          have := firstMatchIdx_lt_length hR1
          simpa using this
        have hneq : df.cols.length ≠ j2 := by
          intro he
          obtain ⟨a2, hg2, hp2⟩ := firstMatchIdx_sound hR1
          rw [← he] at hg2
          rw [get?_append_length_singleton] at hg2
          injection hg2 with hg
          rw [beq_iff_eq] at hp2
          rw [← hg] at hp2
          exact absurd hp2 (by decide)
        have e2 : dfAssign (⟨df.cols ++ ["Origem"], List.zipWith (fun r v => r ++ [v]) df.rows oS⟩ : Frame)
            "Responsavel" rS =
            ⟨df.cols ++ ["Origem"], List.zipWith (fun r v => r.set j2 v)
              (List.zipWith (fun r v => r ++ [v]) df.rows oS) rS⟩ := by
          unfold dfAssign; rw [show (⟨df.cols ++ ["Origem"], List.zipWith (fun r v => r ++ [v]) df.rows oS⟩ : Frame).cols = df.cols ++ ["Origem"] from rfl, hR1]
        rw [e1, e2] at hout
        constructor
        · rw [hout, List.length_zipWith, List.length_zipWith]
        refine ⟨df.cols.length, j2, ?_, ?_, ?_⟩
        · rw [hout]; exact hfO
        · rw [hout]; exact hR1
        · intro i r x y hri hxi hyi
          have hr1 := zipWith_get? (fun r v => r ++ [v]) hri hxi
          have hr2 := zipWith_get? (fun r v => r.set j2 v) hr1 hyi
          have hrl : r.length = df.cols.length := hrect r (List.get?_mem hri)
          refine ⟨_, by rw [hout]; exact hr2, ?_, ?_⟩
          · rw [getD_set_ne _ df.cols.length j2 _ _ hneq]
            rw [show df.cols.length = r.length from hrl.symm]
            rw [getD_append_length]
            rfl
          · exact getD_set_self _ _ _ _ (by simp; omega)
      | none =>
        have e2 : dfAssign (⟨df.cols ++ ["Origem"], List.zipWith (fun r v => r ++ [v]) df.rows oS⟩ : Frame)
            "Responsavel" rS =
            ⟨(df.cols ++ ["Origem"]) ++ ["Responsavel"], List.zipWith (fun r v => r ++ [v])
              (List.zipWith (fun r v => r ++ [v]) df.rows oS) rS⟩ := by
          unfold dfAssign; rw [show (⟨df.cols ++ ["Origem"], List.zipWith (fun r v => r ++ [v]) df.rows oS⟩ : Frame).cols = df.cols ++ ["Origem"] from rfl, hR1]
        rw [e1, e2] at hout
        constructor
        · rw [hout, List.length_zipWith, List.length_zipWith]
        refine ⟨df.cols.length, (df.cols ++ ["Origem"]).length, ?_, ?_, ?_⟩
        · rw [hout]
          exact firstMatchIdx_append_left _ hfO
        · rw [hout]
          exact firstMatchIdx_append_cons _ _ _ _
            ((firstMatchIdx_eq_none_iff _ _).mp hR1) (by simp)
        · intro i r x y hri hxi hyi
          have hr1 := zipWith_get? (fun r v => r ++ [v]) hri hxi
          have hr2 := zipWith_get? (fun r v => r ++ [v]) hr1 hyi
          have hrl : r.length = df.cols.length := hrect r (List.get?_mem hri)
          refine ⟨_, by rw [hout]; exact hr2, ?_, ?_⟩
          · rw [getD_append_left _ _ df.cols.length _ (by simp; omega)]
            rw [show df.cols.length = r.length from hrl.symm]
            rw [getD_append_length]
            rfl
          · rw [show (df.cols ++ ["Origem"]).length = (r ++ [x]).length from by simp; omega]
            rw [getD_append_length]
            rfl

theorem runApp_eq_some {df : Frame} {d1 : DF1} {d2 : DF2} {out : Frame}
    (h : runApp df d1 d2 = some out) :
    ∃ tgt orig,
      findTargetIdx df.cols = some tgt ∧
      firstMatchIdx isMatriculaCol df.cols = some orig ∧
      (appMats df tgt).isEmpty = false ∧
      insert_cols df
        (serieFromMapa df orig (mapaOrigem (build_result (appMats df tgt) d1 d2)))
        (serieFromMapa df orig (mapaResp (build_result (appMats df tgt) d1 d2))) = some out := by
  unfold runApp at h
  split at h
  · simp at h
  · rename_i tgt htgt
    split at h
    · simp at h
    · rename_i hne
      split at h
      · simp at h
      · rename_i orig horig
        exact ⟨tgt, orig, htgt, horig, by simpa using hne, h⟩

theorem length_serieFromMapa (df : Frame) (orig : Nat) (mapa : List (String × Option String)) :
    (serieFromMapa df orig mapa).length = df.rows.length := by
  unfold serieFromMapa column
  simp

theorem serieFromMapa_get? (df : Frame) (orig : Nat) (mapa : List (String × Option String))
    {i : Nat} {r : List (Option String)} (hri : df.rows.get? i = some r) :
    (serieFromMapa df orig mapa).get? i =
      some ((dlookup mapa (pyStrip (cellStr (r.getD orig none)))).join) := by
  have hri2 : df.rows[i]? = some r := by rw [← List.get?_eq_getElem?]; exact hri
  unfold serieFromMapa column
  rw [List.get?_eq_getElem?, List.getElem?_map, List.getElem?_map, List.getElem?_map, hri2]
  rfl

theorem get?_append_cons_length {α : Type} (l1 : List α) (a : α) (t : List α) :
    (l1 ++ a :: t).get? l1.length = some a := by
  induction l1 with
  | nil => rfl
  | cons c cs ih => exact ih

theorem erase_append_singleton {l : List String} {a : String} (h : a ∉ l) :
    (l ++ [a]).erase a = l := by
  induction l with
  | nil => simp
  | cons t ts ih =>
    have ht : (t == a) = false := by
      rw [beq_eq_false_iff_ne]
      intro he
      exact h (by rw [← he]; exact List.mem_cons_self t ts)
    rw [List.cons_append, List.erase_cons, if_neg (by simp [ht]),
      ih (fun hm => h (List.mem_cons_of_mem _ hm))]

theorem findTargetIdx_eq (cols : List String) :
    findTargetIdx cols =
      match firstMatchIdx (fun c => c == "matricula") (cols.map normalizeName) with
      | some i => some i
      | none => firstMatchIdx (fun c => removeSpaces c == "matricula") (cols.map normalizeName) :=
  rfl

/-! ### Claim theorems -/

/-- C5: the identifier extractor locates the identifier column by a
case-insensitive, accent-insensitive, whitespace-trimming normalized match
against the canonical name `"matricula"` (so a column named
`" Matrícula "` resolves), falls back to additionally removing internal
spaces, and raises `ColumnNotFound` (`KeyError`) if and only if no column
matches after both passes. -/
theorem c5_extractor_column_lookup :
    (∀ cols : List String,
      (findTargetIdx cols = none ↔
        ∀ c ∈ cols, normalizeName c ≠ "matricula" ∧
          removeSpaces (normalizeName c) ≠ "matricula")) ∧
    normalizeName " Matrícula " = "matricula" ∧
    findTargetIdx ["Nome", " Matrícula "] = some 1 ∧
    findTargetIdx ["Nome", "Mat rícula"] = some 1 := by
  refine ⟨?_, by decide, by decide, by decide⟩
  intro cols
  constructor
  · intro h c hc
    have hcn : normalizeName c ∈ cols.map normalizeName := List.mem_map.mpr ⟨c, hc, rfl⟩
    rw [findTargetIdx_eq] at h
    split at h
    · simp at h
    · rename_i h1
      have ha := (firstMatchIdx_eq_none_iff _ _).mp h1 _ hcn
      have hb := (firstMatchIdx_eq_none_iff _ _).mp h _ hcn
      exact ⟨by simpa using ha, by simpa using hb⟩
  · intro h
    have h1 : firstMatchIdx (fun c => c == "matricula") (cols.map normalizeName) = none := by
      rw [firstMatchIdx_eq_none_iff]
      intro x hx
      obtain ⟨c, hc, rfl⟩ := List.mem_map.mp hx
      exact beq_eq_false_iff_ne.mpr (h c hc).1
    have h2 : firstMatchIdx (fun c => removeSpaces c == "matricula")
        (cols.map normalizeName) = none := by
      rw [firstMatchIdx_eq_none_iff]
      intro x hx
      obtain ⟨c, hc, rfl⟩ := List.mem_map.mp hx
      exact beq_eq_false_iff_ne.mpr (h c hc).2
    rw [findTargetIdx_eq, h1, h2]

/-- C6: when every row's identifier value is absent (empty, `"nan"`,
`"None"`), the extractor yields an empty batch rather than an error, and
the main flow stops before `fetch_presence`: no backing-store call is
issued. -/
theorem c6_empty_batch_short_circuits (vals : List String)
    (h : ∀ v ∈ vals, absentVal (pyStrip v) = true) :
    pipelineAfterExtract vals = FlowOutcome.stoppedEmpty ∧ fetchCalls vals = 0 := by
  have he : extractValues vals = [] := by
    unfold extractValues
    rw [List.filter_eq_nil_iff]
    intro a ha
    obtain ⟨v, hv, rfl⟩ := List.mem_map.mp ha
    simp [h v hv]
  constructor
  · unfold pipelineAfterExtract
    rw [he]
    rfl
  · unfold fetchCalls pipelineAfterExtract
    rw [he]
    rfl

/-- Witness for C6 at a concrete upload whose identifier values are all
absent. -/
theorem c6_empty_batch_short_circuits_witness :
    pipelineAfterExtract ["", " nan ", "None"] = FlowOutcome.stoppedEmpty ∧
      fetchCalls ["", " nan ", "None"] = 0 :=
  c6_empty_batch_short_circuits ["", " nan ", "None"] (by decide)

/-- C7: the uniquely-named staging table of `fetch_presence` is released on
every exit path — the transaction of `with engine.begin()` either reaches
the explicit `DROP TABLE` and commits, or rolls back (SQL Server DDL on
the temp table being transactional) — so the backing store ends with
exactly the staging tables it started with, whether the insert and the two
source queries succeed or raise. -/
theorem c7_staging_scope_released (tables : List String) (temp : String)
    (hfresh : temp ∉ tables) (insOk q1Ok q2Ok : Bool) :
    (fetch_presence_store tables temp insOk q1Ok q2Ok).1 = tables ∧
    temp ∉ (fetch_presence_store tables temp insOk q1Ok q2Ok).1 := by
  have hfin : (fetch_presence_store tables temp insOk q1Ok q2Ok).1 = tables := by
    unfold fetch_presence_store
    cases insOk with
    | false => rfl
    | true =>
      cases q1Ok with
      | false => rfl
      | true =>
        cases q2Ok with
        | false => rfl
        | true =>
          simp only [Bool.not_true, Bool.false_eq_true, if_false]
          exact erase_append_singleton hfresh
  exact ⟨hfin, by rw [hfin]; exact hfresh⟩

/-- Witness for C7 on a concrete store, covering one failing and one
succeeding execution. -/
theorem c7_staging_scope_released_witness :
    (fetch_presence_store ["T0"] "tmpA" true true false).1 = ["T0"] ∧
    (fetch_presence_store ["T0"] "tmpA" true true true).1 = ["T0"] :=
  ⟨(c7_staging_scope_released ["T0"] "tmpA" (by decide) true true false).1,
   (c7_staging_scope_released ["T0"] "tmpA" (by decide) true true true).1⟩

/-- C8: a failure of the principal query aborts the whole request of the
batch report (`main` returns, nothing is exported), while a failure of the
auxiliary query degrades to an empty frame for that source only and the
request continues; and in `build_result` a source whose result set is the
empty frame (no `Matricula` column) is never counted as present — it
contributes exactly what an empty result set contributes. -/
theorem c8_primary_fatal_secondary_degrades :
    (∀ (q2Ok : Bool) (d1v d2v : List (List String)), mainQueries false q2Ok d1v d2v = none) ∧
    (∀ d1v d2v : List (List String), mainQueries true false d1v d2v = some (d1v, [])) ∧
    (∀ (mats : List String) (d1 : DF1) (rows2 : List String),
      build_result mats d1 ⟨false, rows2⟩ = build_result mats d1 ⟨true, []⟩) := by
  refine ⟨fun _ _ _ => rfl, fun _ _ => rfl, fun mats d1 rows2 => ?_⟩
  unfold build_result
  apply List.map_congr_left
  intro m _
  simp

/-- C9 counterexample: the sheet name written by the web export is only
truncated, never sanitized — a name holding the xlsx-invalid characters
`:` and `/` passes through unchanged. -/
theorem c9_counterexample :
    xlsx_sheet (some "Aba: Liminar/2024") = "Aba: Liminar/2024" ∧
    ("Aba: Liminar/2024".data.filter (fun c => invalidSheetChars.contains c)).length = 2 := by
  constructor
  · rfl
  · rfl

/-- C9 amended: every sheet name written by the web export is truncated to
at most 31 characters, and the batch report writes fixed literal sheet
names of at most 31 characters; no invalid-character sanitization is
applied to sheet names. -/
theorem c9_sheet_name_truncation :
    (∀ s : Option String, (xlsx_sheet s).length ≤ 31) ∧
    sheetDados.length ≤ 31 ∧ sheetSemNumero.length ≤ 31 ∧ sheetEstatistica.length ≤ 31 := by
  refine ⟨?_, by decide, by decide, by decide⟩
  intro s
  show ((s.getD "Planilha").data.take 31).length ≤ 31
  rw [List.length_take]
  omega

/-- C4 counterexample: on the upload schema `["Origem", "Matricula"]` the
anchor is absent, yet the derived columns are not appended as the last two
columns — the assignment `df_out["Origem"] = …` overwrites the uploaded
`Origem` column in place (position 0) and only `Responsavel` is appended,
so the last two columns of the export are `["Matricula", "Responsavel"]`. -/
theorem c4_counterexample :
    firstMatchIdx isAnchor ["Origem", "Matricula"] = none ∧
    insert_cols ⟨["Origem", "Matricula"], [[some "o", some "001"]]⟩ [some "X"] [some "Y"] =
      some ⟨["Origem", "Matricula", "Responsavel"], [[some "X", some "001", some "Y"]]⟩ ∧
    ["Origem", "Matricula", "Responsavel"].drop 1 ≠ ["Origem", "Responsavel"] := by
  refine ⟨by decide, by decide, by decide⟩

/-- C4 amended: provided neither `Origem` nor `Responsavel` already occurs
in the uploaded schema, the assembler inserts `Origem` immediately after
the anchor column and `Responsavel` immediately after `Origem` when the
anchor exists, and appends both as the last two columns when it does not;
the position is computed once on the schema and the same positional
transformation is applied to every row. -/
theorem c4_insert_positions (df : Frame) (oS rS : List (Option String))
    (hO : "Origem" ∉ df.cols) (hR : "Responsavel" ∉ df.cols) :
    (∀ idx, firstMatchIdx isAnchor df.cols = some idx →
      ∃ out, insert_cols df oS rS = some out ∧
        out.cols = df.cols.take (idx + 1) ++ "Origem" :: "Responsavel" :: df.cols.drop (idx + 1) ∧
        out.cols.get? (idx + 1) = some "Origem" ∧
        out.cols.get? (idx + 2) = some "Responsavel" ∧
        ∀ i r x y, df.rows.get? i = some r → oS.get? i = some x → rS.get? i = some y →
          out.rows.get? i = some (insertNth (insertNth r (idx + 1) x) (idx + 2) y)) ∧
    (firstMatchIdx isAnchor df.cols = none →
      ∃ out, insert_cols df oS rS = some out ∧
        out.cols = df.cols ++ ["Origem"] ++ ["Responsavel"] ∧
        ∀ i r x y, df.rows.get? i = some r → oS.get? i = some x → rS.get? i = some y →
          out.rows.get? i = some (r ++ [x] ++ [y])) := by
  constructor
  · intro idx ha
    have hidx : idx < df.cols.length := firstMatchIdx_lt_length ha
    have hT : (df.cols.take (idx + 1)).length = idx + 1 := by
      rw [List.length_take]; omega
    refine ⟨_, insert_cols_anchor ha hO hR, rfl, ?_, ?_, ?_⟩
    · show (df.cols.take (idx + 1) ++ "Origem" :: "Responsavel" :: df.cols.drop (idx + 1)).get?
        (idx + 1) = some "Origem"
      have hg := get?_append_cons_length (df.cols.take (idx + 1)) "Origem"
        ("Responsavel" :: df.cols.drop (idx + 1))
      rw [hT] at hg
      exact hg
    · show (df.cols.take (idx + 1) ++ "Origem" :: "Responsavel" :: df.cols.drop (idx + 1)).get?
        (idx + 2) = some "Responsavel"
      rw [show df.cols.take (idx + 1) ++ "Origem" :: "Responsavel" :: df.cols.drop (idx + 1) =
        (df.cols.take (idx + 1) ++ ["Origem"]) ++ "Responsavel" :: df.cols.drop (idx + 1) by simp]
      have hg := get?_append_cons_length (df.cols.take (idx + 1) ++ ["Origem"]) "Responsavel"
        (df.cols.drop (idx + 1))
      rw [show (df.cols.take (idx + 1) ++ ["Origem"]).length = idx + 2 by simp [hT]] at hg
      exact hg
    · intro i r x y hri hxi hyi
      have hr1 := zipWith_get? (fun r v => insertNth r (idx + 1) v) hri hxi
      exact zipWith_get? (fun r v => insertNth r (idx + 2) v) hr1 hyi
  · intro ha
    refine ⟨_, insert_cols_noanchor ha hO hR, rfl, ?_⟩
    intro i r x y hri hxi hyi
    have hr1 := zipWith_get? (fun r v => r ++ [v]) hri hxi
    exact zipWith_get? (fun r v => r ++ [v]) hr1 hyi

/-- Witness for C4 (amended) at a concrete frame, one run with the anchor
present and one with it absent. -/
theorem c4_insert_positions_witness :
    (insert_cols (⟨["A", "Situação do Participante", "B"], [[some "1", some "2", some "3"]]⟩ : Frame)
        [some "X"] [some "Y"]).map Frame.cols =
      some ["A", "Situação do Participante", "Origem", "Responsavel", "B"] ∧
    (insert_cols (⟨["Matricula"], [[some "001"]]⟩ : Frame) [some "X"] [some "Y"]).map Frame.cols =
      some ["Matricula", "Origem", "Responsavel"] := by
  constructor
  · obtain ⟨out, h1, h2, _⟩ :=
      (c4_insert_positions (⟨["A", "Situação do Participante", "B"],
        [[some "1", some "2", some "3"]]⟩ : Frame) [some "X"] [some "Y"]
        (by decide) (by decide)).1 1 (by decide)
    rw [h1, Option.map_some', h2]
    decide
  · obtain ⟨out, h1, h2, _⟩ :=
      (c4_insert_positions (⟨["Matricula"], [[some "001"]]⟩ : Frame) [some "X"] [some "Y"]
        (by decide) (by decide)).2 (by decide)
    rw [h1, Option.map_some', h2]
    decide

/-- C10 counterexample: with a variant-spelled anchor
(`"situação do participante"`, lower case) the anchor is indeed treated as
absent, but the derived columns are not appended as the last two columns —
the uploaded `Origem` column is overwritten in place and only
`Responsavel` is appended. -/
theorem c10_counterexample :
    firstMatchIdx isAnchor ["Origem", "Matricula", "situação do participante"] = none ∧
    insert_cols ⟨["Origem", "Matricula", "situação do participante"],
        [[some "o", some "001", some "s"]]⟩ [some "X"] [some "Y"] =
      some ⟨["Origem", "Matricula", "situação do participante", "Responsavel"],
        [[some "X", some "001", some "s", some "Y"]]⟩ ∧
    ["Origem", "Matricula", "situação do participante", "Responsavel"].drop 2 ≠
      ["Origem", "Responsavel"] := by
  refine ⟨by decide, by decide, by decide⟩

/-- C10 amended: anchor matching in `insert_cols` is exact and literal,
unlike the normalized identifier lookup — variant spellings (case, accent,
surrounding whitespace) normalize to the same name as the anchor yet do
not match it; when no column is literally `"Situação do Participante"`
(and the derived names do not already occur in the schema) the two derived
columns are appended as the last two columns instead. -/
theorem c10_anchor_match_is_literal :
    (∀ df : Frame, ∀ oS rS : List (Option String),
      "Situação do Participante" ∉ df.cols →
      "Origem" ∉ df.cols → "Responsavel" ∉ df.cols →
      ∃ rows2, insert_cols df oS rS =
        some ⟨df.cols ++ ["Origem"] ++ ["Responsavel"], rows2⟩) ∧
    (∀ v ∈ (["situação do participante", "SITUAÇÃO DO PARTICIPANTE",
        "Situacao do Participante", " Situação do Participante "] : List String),
      isAnchor v = false ∧ normalizeName v = normalizeName "Situação do Participante") ∧
    isAnchor "Situação do Participante" = true := by
  refine ⟨?_, by decide, by decide⟩
  intro df oS rS hvar hO hR
  have ha : firstMatchIdx isAnchor df.cols = none := by
    rw [firstMatchIdx_eq_none_iff]
    intro x hx
    unfold isAnchor
    exact beq_eq_false_iff_ne.mpr (fun he => hvar (he ▸ hx))
  exact ⟨_, insert_cols_noanchor ha hO hR⟩

/-- Witness for C10 (amended) at a concrete frame whose anchor has a
variant spelling. -/
theorem c10_anchor_match_is_literal_witness :
    ∃ rows2, insert_cols (⟨["Matricula", "situação do participante"],
        [[some "001", some "s"]]⟩ : Frame) [some "X"] [some "Y"] =
      some ⟨["Matricula", "situação do participante"] ++ ["Origem"] ++ ["Responsavel"], rows2⟩ :=
  c10_anchor_match_is_literal.1
    (⟨["Matricula", "situação do participante"], [[some "001", some "s"]]⟩ : Frame)
    [some "X"] [some "Y"] (by decide) (by decide) (by decide)

/-- C1: for every identifier in the extracted batch, `build_result` assigns
exactly the label the spec's membership resolver prescribes over the
precedence list `["Bloqueios", "Liminar"]` — `Both` (rendered `"Ambas"`)
when present in at least two source result sets, the single source's name
when present in exactly one, `Unmatched` (null) when present in none — and
its `Responsavel` equals the spec's auxiliary-attribute rule: the
attribute of the first source in precedence order that contains the
identifier and supplies a non-null attribute (the `Liminar` source
supplies no attribute), null if none does. -/
theorem c1_membership_resolution (mats : List String) (d1 : DF1) (d2 : DF2)
    (h1 : d1.hasMatricula = true) (h2 : d1.hasResponsavel = true)
    (h3 : d2.hasMatricula = true)
    {i : Nat} {m : String} (hm : mats.get? i = some m) :
    (build_result mats d1 d2).get? i =
      some (m,
        specLabel [("Bloqueios", (df1Keys d1).contains m), ("Liminar", d2.rows.contains m)],
        specAux [((df1Keys d1).contains m, sourceAttr d1 m),
                 (d2.rows.contains m, none)]) := by
  have hm2 : mats[i]? = some m := by rw [← List.get?_eq_getElem?]; exact hm
  unfold build_result
  rw [List.get?_eq_getElem?, List.getElem?_map, hm2, Option.map_some']
  rw [h1, h2, h3]
  simp only [Bool.true_and]
  cases hP : (df1Keys d1).contains m with
  | true =>
    cases hR : d2.rows.contains m with
    | true =>
      cases ha : sourceAttr d1 m with
      | none => simp [specLabel, specAux, ha]
      | some v => simp [specLabel, specAux, ha]
    | false =>
      cases ha : sourceAttr d1 m with
      | none => simp [specLabel, specAux, ha]
      | some v => simp [specLabel, specAux, ha]
  | false =>
    have hnone : sourceAttr d1 m = none := by
      unfold df1Keys at hP
      have hkc := keys_contains_eq d1.rows m
      rw [hP] at hkc
      unfold sourceAttr
      cases hf : d1.rows.find? (fun r => r.1 == m) with
      | none => rfl
      | some p => rw [hf] at hkc; simp at hkc
    cases hR : d2.rows.contains m with
    | true => simp [specLabel, specAux, hnone]
    | false => simp [specLabel, specAux, hnone]

/-- Witness for C1: spec Scenario A — `"001"` only in `Bloqueios` with
attribute `"X"`, `"002"` only in `Liminar`, `"003"` in neither. -/
theorem c1_membership_resolution_witness :
    (build_result ["001", "002", "003"] ⟨true, true, [("001", some "X")]⟩
        ⟨true, ["002"]⟩).get? 0 =
      some ("001", specLabel [("Bloqueios", true), ("Liminar", false)],
        specAux [(true, some "X"), (false, none)]) ∧
    (build_result ["001", "002", "003"] ⟨true, true, [("001", some "X")]⟩
        ⟨true, ["002"]⟩).get? 1 =
      some ("002", specLabel [("Bloqueios", false), ("Liminar", true)],
        specAux [(false, some "X"), (true, none)]) ∧
    (build_result ["001", "002", "003"] ⟨true, true, [("001", some "X")]⟩
        ⟨true, ["002"]⟩).get? 2 =
      some ("003", specLabel [("Bloqueios", false), ("Liminar", false)],
        specAux [(false, some "X"), (false, none)]) := by
  refine ⟨?_, ?_, ?_⟩
  · rw [c1_membership_resolution ["001", "002", "003"] ⟨true, true, [("001", some "X")]⟩
      ⟨true, ["002"]⟩ rfl rfl rfl (show (["001", "002", "003"] : List String).get? 0 = some "001" from rfl)]
    decide
  · rw [c1_membership_resolution ["001", "002", "003"] ⟨true, true, [("001", some "X")]⟩
      ⟨true, ["002"]⟩ rfl rfl rfl (show (["001", "002", "003"] : List String).get? 1 = some "002" from rfl)]
    decide
  · rw [c1_membership_resolution ["001", "002", "003"] ⟨true, true, [("001", some "X")]⟩
      ⟨true, ["002"]⟩ rfl rfl rfl (show (["001", "002", "003"] : List String).get? 2 = some "003" from rfl)]
    decide

theorem mem_mapaOrigem_key {mats : List String} {d1 : DF1} {d2 : DF2}
    {p : String × Option String} (hp : p ∈ mapaOrigem (build_result mats d1 d2)) :
    ∃ m ∈ mats, p.1 = pyStrip m := by
  unfold mapaOrigem at hp
  obtain ⟨row, hrow, rfl⟩ := List.mem_map.mp hp
  unfold build_result at hrow
  obtain ⟨m, hm, rfl⟩ := List.mem_map.mp hrow
  exact ⟨m, hm, rfl⟩

theorem mem_mapaResp_key {mats : List String} {d1 : DF1} {d2 : DF2}
    {p : String × Option String} (hp : p ∈ mapaResp (build_result mats d1 d2)) :
    ∃ m ∈ mats, p.1 = pyStrip m := by
  unfold mapaResp at hp
  obtain ⟨row, hrow, rfl⟩ := List.mem_map.mp hp
  unfold build_result at hrow
  obtain ⟨m, hm, rfl⟩ := List.mem_map.mp hrow
  exact ⟨m, hm, rfl⟩

/-- C2: for every uploaded frame, the full export produced by the main flow
has exactly the same row count as the upload and row `i` of the export is
derived from row `i` of the upload (same order); every row whose stripped
identifier value never entered the extracted batch — in particular every
absent value (`""`, `"nan"`, `"None"`), which the last conjunct shows can
never be in the batch — is retained with null `Origem` and null
`Responsavel` cells, never removed. -/
theorem c2_full_export_preserves_rows (df : Frame) (d1 : DF1) (d2 : DF2) (out : Frame)
    (hrect : ∀ r ∈ df.rows, r.length = df.cols.length)
    (h : runApp df d1 d2 = some out) :
    out.rows.length = df.rows.length ∧
    (∀ tgt orig, findTargetIdx df.cols = some tgt →
      firstMatchIdx isMatriculaCol df.cols = some orig →
      ∀ i r, df.rows.get? i = some r →
        pyStrip (cellStr (r.getD orig none)) ∉ appMats df tgt →
        ∃ jO jR r2,
          firstMatchIdx (fun c => c == "Origem") out.cols = some jO ∧
          firstMatchIdx (fun c => c == "Responsavel") out.cols = some jR ∧
          out.rows.get? i = some r2 ∧ r2.getD jO none = none ∧ r2.getD jR none = none) ∧
    (∀ tgt k, absentVal k = true → k ∉ appMats df tgt) ∧
    ("Origem" ∉ df.cols → "Responsavel" ∉ df.cols →
      ∀ i r, df.rows.get? i = some r → i < df.rows.length →
      ∃ x y,
        (∀ idx, firstMatchIdx isAnchor df.cols = some idx →
          out.rows.get? i = some (insertNth (insertNth r (idx + 1) x) (idx + 2) y)) ∧
        (firstMatchIdx isAnchor df.cols = none →
          out.rows.get? i = some (r ++ [x] ++ [y]))) := by
  obtain ⟨tgt, orig, htgt, horig, hne, hic⟩ := runApp_eq_some h
  have hlenO := length_serieFromMapa df orig (mapaOrigem (build_result (appMats df tgt) d1 d2))
  have hlenR := length_serieFromMapa df orig (mapaResp (build_result (appMats df tgt) d1 d2))
  obtain ⟨hlen, jO, jR, hjO, hjR, hcell⟩ := insert_cols_positions hic hrect
  refine ⟨?_, ?_, ?_, ?_⟩
  · rw [hlen, hlenO, hlenR]
    simp
  · intro tgt' orig' htgt' horig' i r hri habs
    rw [htgt] at htgt'
    injection htgt' with he
    subst he
    rw [horig] at horig'
    injection horig' with he2
    subst he2
    have hdrop : ∀ (mapa : List (String × Option String)),
        (∀ p ∈ mapa, ∃ m ∈ appMats df tgt, p.1 = pyStrip m) →
        (serieFromMapa df orig mapa).get? i = some none := by
      intro mapa hmapa
      rw [serieFromMapa_get? df orig mapa hri]
      rw [dlookup_eq_none]
      · rfl
      · intro p hp hkey
        obtain ⟨m, hmm, hpm⟩ := hmapa p hp
        have hps := (mem_extractValues (show m ∈ extractValues _ from hmm)).2
        rw [hpm, hps] at hkey
        exact habs (hkey ▸ hmm)
    have hoS := hdrop (mapaOrigem (build_result (appMats df tgt) d1 d2))
      (fun p hp => mem_mapaOrigem_key hp)
    have hrS := hdrop (mapaResp (build_result (appMats df tgt) d1 d2))
      (fun p hp => mem_mapaResp_key hp)
    obtain ⟨r2, hr2, hx, hy⟩ := hcell i r none none hri hoS hrS
    exact ⟨jO, jR, r2, hjO, hjR, hr2, hx, hy⟩
  · intro tgt0 k habs hkmem
    have hfk := (mem_extractValues (show k ∈ extractValues _ from hkmem)).1
    simp [habs] at hfk
  · intro hO hR i r hri hilt
    cases hx : (serieFromMapa df orig (mapaOrigem (build_result (appMats df tgt) d1 d2))).get? i with
    | none =>
      have := List.get?_eq_none.mp hx
      rw [hlenO] at this
      omega
    | some x =>
      cases hy : (serieFromMapa df orig (mapaResp (build_result (appMats df tgt) d1 d2))).get? i with
      | none =>
        have := List.get?_eq_none.mp hy
        rw [hlenR] at this
        omega
      | some y =>
        refine ⟨x, y, ?_, ?_⟩
        · intro idx ha
          have heq := @insert_cols_anchor df
            (serieFromMapa df orig (mapaOrigem (build_result (appMats df tgt) d1 d2)))
            (serieFromMapa df orig (mapaResp (build_result (appMats df tgt) d1 d2)))
            idx ha hO hR
          rw [heq] at hic
          have hout := Option.some.inj hic
          rw [← hout]
          exact zipWith_get? _ (zipWith_get? _ hri hx) hy
        · intro ha
          have heq := @insert_cols_noanchor df
            (serieFromMapa df orig (mapaOrigem (build_result (appMats df tgt) d1 d2)))
            (serieFromMapa df orig (mapaResp (build_result (appMats df tgt) d1 d2)))
            ha hO hR
          rw [heq] at hic
          have hout := Option.some.inj hic
          rw [← hout]
          exact zipWith_get? _ (zipWith_get? _ hri hx) hy

/-- Witness for C2 at a concrete upload: a two-row frame whose second
identifier cell is missing keeps both rows, and the absent value `"nan"`
is not in the extracted batch. -/
theorem c2_full_export_preserves_rows_witness :
    (⟨["Matricula", "Origem", "Responsavel"],
      [[some "001", some "Bloqueios", some "X"], [none, none, none]]⟩ : Frame).rows.length =
      (⟨["Matricula"], [[some "001"], [none]]⟩ : Frame).rows.length ∧
    "nan" ∉ appMats (⟨["Matricula"], [[some "001"], [none]]⟩ : Frame) 0 := by
  have h := c2_full_export_preserves_rows (⟨["Matricula"], [[some "001"], [none]]⟩ : Frame)
    ⟨true, true, [("001", some "X")]⟩ ⟨true, ["101"]⟩
    (⟨["Matricula", "Origem", "Responsavel"],
      [[some "001", some "Bloqueios", some "X"], [none, none, none]]⟩ : Frame)
    (by decide) (by decide)
  exact ⟨h.1, h.2.2.1 0 "nan" rfl⟩

/-- C3: the matches-only export equals the order-preserving filter of the
full export keeping exactly the rows whose `Origem` cell (located by label
in the export schema) is non-null. -/
theorem c3_matches_only_is_filter (df : Frame) (d1 : DF1) (d2 : DF2) (full : Frame)
    (hrect : ∀ r ∈ df.rows, r.length = df.cols.length)
    (h : runApp df d1 d2 = some full) :
    ∃ jO, firstMatchIdx (fun c => c == "Origem") full.cols = some jO ∧
      df_export_matches full =
        some ⟨full.cols, full.rows.filter (fun r => (r.getD jO none).isSome)⟩ ∧
      (full.rows.filter (fun r => (r.getD jO none).isSome)).Sublist full.rows ∧
      ∀ r ∈ full.rows.filter (fun r => (r.getD jO none).isSome),
        (r.getD jO none).isSome = true := by
  obtain ⟨tgt, orig, htgt, horig, hne, hic⟩ := runApp_eq_some h
  obtain ⟨hlen, jO, jR, hjO, hjR, hcell⟩ := insert_cols_positions hic hrect
  refine ⟨jO, hjO, ?_, List.filter_sublist _, ?_⟩
  · unfold df_export_matches
    rw [hjO]
    rfl
  · intro r hr
    exact (List.mem_filter.mp hr).2

/-- Witness for C3 at a concrete run: the matches-only export keeps exactly
the row whose `Origem` is non-null, in order. -/
theorem c3_matches_only_is_filter_witness :
    df_export_matches (⟨["Matricula", "Origem", "Responsavel"],
        [[some "001", some "Bloqueios", some "X"], [none, none, none]]⟩ : Frame) =
      some ⟨["Matricula", "Origem", "Responsavel"],
        [[some "001", some "Bloqueios", some "X"]]⟩ := by
  obtain ⟨jO, hjO, he, hsub, hmem⟩ :=
    c3_matches_only_is_filter (⟨["Matricula"], [[some "001"], [none]]⟩ : Frame)
      ⟨true, true, [("001", some "X")]⟩ ⟨true, ["101"]⟩
      (⟨["Matricula", "Origem", "Responsavel"],
        [[some "001", some "Bloqueios", some "X"], [none, none, none]]⟩ : Frame)
      (by decide) (by decide)
  have hj : firstMatchIdx (fun c => c == "Origem")
      (⟨["Matricula", "Origem", "Responsavel"],
        [[some "001", some "Bloqueios", some "X"], [none, none, none]]⟩ : Frame).cols =
      some 1 := by decide
  rw [hj] at hjO
  injection hjO with hjO'
  subst hjO'
  rw [he]
  decide

/-- Witness for C5 at concrete schemas: a frame with no matricula-like
column raises, and the accented padded variant resolves. -/
theorem c5_extractor_column_lookup_witness :
    findTargetIdx ["Nome", "Plano"] = none ∧
    normalizeName " Matrícula " = "matricula" :=
  ⟨(c5_extractor_column_lookup.1 ["Nome", "Plano"]).mpr (by decide),
   c5_extractor_column_lookup.2.1⟩

/-- Witness for C8 at concrete data: primary failure aborts, secondary
failure continues with an empty frame, and a columnless secondary frame
resolves like an empty result set. -/
theorem c8_primary_fatal_secondary_degrades_witness :
    mainQueries false true [["a"]] [["b"]] = none ∧
    mainQueries true false [["a"]] [["b"]] = some ([["a"]], []) ∧
    build_result ["001"] ⟨true, true, [("001", some "X")]⟩ ⟨false, ["001"]⟩ =
      build_result ["001"] ⟨true, true, [("001", some "X")]⟩ ⟨true, []⟩ :=
  ⟨c8_primary_fatal_secondary_degrades.1 true [["a"]] [["b"]],
   c8_primary_fatal_secondary_degrades.2.1 [["a"]] [["b"]],
   c8_primary_fatal_secondary_degrades.2.2 ["001"] ⟨true, true, [("001", some "X")]⟩ ["001"]⟩

/-- Witness for C9 (amended) at a concrete over-long sheet name. -/
theorem c9_sheet_name_truncation_witness :
    (xlsx_sheet (some "Relatorio de requerimentos deferidos e devolvidos 2024")).length ≤ 31 :=
  c9_sheet_name_truncation.1 (some "Relatorio de requerimentos deferidos e devolvidos 2024")
